import Mathlib

/-!
Shallow embedding of the Tree-of-Thought MCP server
(src/mcps/tot-mcp/src/tot_mcp/server.py) and proofs about its search,
scoring, pruning and selection behaviour.

Modelling conventions:
* Python floats are modelled as rationals (ℚ); all score arithmetic in the
  source is +, *, / and comparisons, which ℚ represents exactly.
* Python dicts (insertion-ordered) are association lists with first-key
  lookup and in-place update (update keeps the position of an existing key,
  a new key is appended), matching dict semantics.
* uuid4-generated identifiers are explicit string parameters.
* Timestamps, logging, the FastMCP transport and the thinking-level
  heuristic are not modelled: no claim concerns them.
* An uncaught Python KeyError or IndexError is modelled as an error result
  that leaves the tree exactly as it was at the raise point.
-/

/- Batteries marks the rational arithmetic operations irreducible; concrete
score computations in witnesses and counterexamples are evaluated by
decide, so restore their reducibility. -/
unseal Rat.mul Rat.add Rat.sub Rat.inv

namespace ToT

/-- ThoughtStatus (server.py, class ThoughtStatus). -/
inductive ThoughtStatus where
  | pending
  | promising
  | uncertain
  | failed
  | selected
  | complete
deriving DecidableEq, Repr

/-- A node in the thought tree (server.py, dataclass Thought).
metadata values are strings here; the code stores strings and the boolean
True (rendered as the string "true"). -/
structure Thought where
  id : String
  content : String := ""
  rationale : String := ""
  parent_id : Option String := none
  children : List String := []
  status : ThoughtStatus := ThoughtStatus.pending
  scores : List (String × ℚ) := []
  total_score : ℚ := 0
  depth : Nat := 0
  metadata : List (String × String) := []
deriving DecidableEq, Repr

/-- A tree of thoughts (server.py, dataclass ThoughtTree). -/
structure ThoughtTree where
  id : String
  problem : String := ""
  root_id : String
  current_id : String
  thoughts : List (String × Thought) := []
  criteria : List String := []
  criteria_weights : List (String × ℚ) := []
  strategy : String := "greedy"
  max_depth : Int := 5
  best_score_seen : ℚ := 0
  diversity_threshold : ℚ := 3 / 10
deriving DecidableEq, Repr

/-- Dict lookup: value of the first (and, by construction, only) binding of a key. -/
def alookup {α : Type} (m : List (String × α)) (k : String) : Option α :=
  match m with
  | [] => none
  | (k1, v) :: rest => if k1 = k then some v else alookup rest k

/-- Dict assignment d[k] = v: replace in place if present, append if absent. -/
def aupdate {α : Type} (m : List (String × α)) (k : String) (v : α) : List (String × α) :=
  match m with
  | [] => [(k, v)]
  | (k1, v1) :: rest => if k1 = k then (k, v) :: rest else (k1, v1) :: aupdate rest k v

/-- _calculate_weighted_score: weighted mean over the submitted criteria;
unweighted mean when no weights are configured; 0 for an empty score map. -/
def calculateWeightedScore (scores : List (String × ℚ)) (weights : List (String × ℚ)) : ℚ :=
  if scores = [] then 0
  else if weights = [] then
    ((scores.map (fun p => p.2)).sum) / (scores.length : ℚ)
  else
    let totalWeight := (scores.map (fun p => ((alookup weights p.1).getD 1))).sum
    let weightedSum := (scores.map (fun p => p.2 * ((alookup weights p.1).getD 1))).sum
    if 0 < totalWeight then weightedSum / totalWeight else 0

/-- _should_prune: never prune while best_score_seen ≤ 0; otherwise prune when
total_score is below best_score_seen * (0.5 + 0.1 * depth). -/
def shouldPrune (thought : Thought) (tree : ThoughtTree) : Bool :=
  if tree.best_score_seen ≤ 0 then false
  else
    decide (thought.total_score <
      tree.best_score_seen * (1 / 2 + (1 / 10) * (thought.depth : ℚ)))

/-- min(scores.values()) if scores else 0, from evaluate_thoughts. -/
def minScore (scores : List (String × ℚ)) : ℚ :=
  match scores.map (fun p => p.2) with
  | [] => 0
  | x :: xs => xs.foldl min x

/-- The three-tier classification of a thought that survived pruning
(evaluate_thoughts, the if/elif/else chain on avg_score and min_score). -/
def classifyStatus (avgScore minSc : ℚ) : ThoughtStatus :=
  if 7 ≤ avgScore ∧ 5 ≤ minSc then ThoughtStatus.promising
  else if 5 ≤ avgScore ∧ 3 ≤ minSc then ThoughtStatus.uncertain
  else ThoughtStatus.failed

def statusLabel (s : ThoughtStatus) : String :=
  match s with
  | ThoughtStatus.pending => "pending"
  | ThoughtStatus.promising => "promising"
  | ThoughtStatus.uncertain => "uncertain"
  | ThoughtStatus.failed => "failed"
  | ThoughtStatus.selected => "selected"
  | ThoughtStatus.complete => "complete"

/-- One entry of the evaluations argument of evaluate_thoughts. -/
structure EvalEntry where
  thought_id : String
  scores : List (String × ℚ)
deriving DecidableEq, Repr

/-- One entry of the results list of evaluate_thoughts (the reported
total_score is kept exact here; the code rounds it to two decimals for
display only). -/
structure EvalResult where
  thought_id : String
  total_score : ℚ
  classification : String
deriving DecidableEq, Repr

/-- The prune_reason metadata value (the code interpolates the two scores into
this message; the numeric interpolation is irrelevant to every claim). -/
def pruneReasonText : String := "Score below threshold of best score seen"

/-- The body of the evaluation loop of evaluate_thoughts for one entry:
unknown thought ids are skipped; otherwise scores and the weighted
total_score are stored, best_score_seen is raised if exceeded, then the
pruning test runs against the updated bound, and survivors are classified. -/
def evalStep (tree : ThoughtTree) (e : EvalEntry) : ThoughtTree × Option EvalResult :=
  match alookup tree.thoughts e.thought_id with
  | none => (tree, none)
  | some th =>
    let total := calculateWeightedScore e.scores tree.criteria_weights
    let th1 : Thought := { th with scores := e.scores, total_score := total }
    let newBest := if tree.best_score_seen < total then total else tree.best_score_seen
    let tree1 : ThoughtTree := { tree with best_score_seen := newBest }
    if shouldPrune th1 tree1 then
      let th2 : Thought :=
        { th1 with
          status := ThoughtStatus.failed,
          metadata := aupdate (aupdate th1.metadata "pruned" "true") "prune_reason" pruneReasonText }
      ({ tree1 with thoughts := aupdate tree1.thoughts e.thought_id th2 },
        some { thought_id := e.thought_id, total_score := total, classification := "pruned" })
    else
      let st := classifyStatus total (minScore e.scores)
      let th2 : Thought := { th1 with status := st }
      ({ tree1 with thoughts := aupdate tree1.thoughts e.thought_id th2 },
        some { thought_id := e.thought_id, total_score := total, classification := statusLabel st })

/-- evaluate_thoughts processes the evaluations in order, threading the tree
(so best_score_seen accumulated from earlier entries judges later ones).
The code then sorts the results for display; that sort does not touch tree
state and is omitted here. -/
def evaluateThoughts (tree : ThoughtTree) : List EvalEntry → ThoughtTree × List EvalResult
  | [] => (tree, [])
  | e :: rest =>
    let s := evalStep tree e
    let r := evaluateThoughts s.1 rest
    (r.1, s.2.toList ++ r.2)

/-- Response of create_tree. The code builds this dict unconditionally: there
is no validation of max_depth or strategy, hence no error key; the error
field here records that no failure is ever reported. -/
structure CreateResponse where
  tree_id : String
  strategy : String
  max_depth : Int
  error : Option String := none
deriving DecidableEq, Repr

/-- create_tree: allocates the root (status Selected, depth 0) and the tree,
storing strategy and max_depth exactly as given. The uuid4-generated tree
and root ids are passed in as parameters. -/
def createTree (problem : String) (criteria : Option (List String)) (strategy : String)
    (max_depth : Int) (tree_id root_id : String) : ThoughtTree × CreateResponse :=
  let defaultCriteria := ["feasibility", "complexity", "risk"]
  let crit := match criteria with
    | none => defaultCriteria
    | some [] => defaultCriteria
    | some cs => cs
  let weights := crit.map (fun c => (c, (1 : ℚ)))
  let root : Thought :=
    { id := root_id,
      content := "Problem: " ++ problem,
      rationale := "Root node representing the initial problem state",
      status := ThoughtStatus.selected,
      depth := 0 }
  let tree : ThoughtTree :=
    { id := tree_id,
      problem := problem,
      root_id := root_id,
      current_id := root_id,
      thoughts := [(root_id, root)],
      criteria := crit,
      criteria_weights := weights,
      strategy := strategy,
      max_depth := max_depth }
  (tree, { tree_id := tree_id, strategy := strategy, max_depth := max_depth })

/-- An item of the thoughts argument of generate_thoughts, paired with the
uuid4 id assigned to it. -/
structure NewThought where
  content : String
  rationale : String
deriving DecidableEq, Repr

/-- The insertion loop of generate_thoughts: each new thought becomes a
Pending child of the cursor at depth cursor.depth + 1, and its id is
appended to the cursor's children. -/
def genLoop (m : List (String × Thought)) (curKey : String) (cur : Thought) :
    List (String × NewThought) → List (String × Thought)
  | [] => m
  | (nid, nt) :: rest =>
    let t : Thought :=
      { id := nid,
        content := nt.content,
        rationale := nt.rationale,
        parent_id := some cur.id,
        depth := cur.depth + 1 }
    let cur1 : Thought := { cur with children := cur.children ++ [nid] }
    genLoop (aupdate (aupdate m nid t) curKey cur1) curKey cur1 rest

/-- generate_thoughts (state part). A missing cursor would raise KeyError
before any mutation, leaving the tree unchanged. -/
def generateThoughts (tree : ThoughtTree) (items : List (String × NewThought)) : ThoughtTree :=
  match alookup tree.thoughts tree.current_id with
  | none => tree
  | some cur => { tree with thoughts := genLoop tree.thoughts tree.current_id cur items }

/-- The candidate comprehension of select_path: the cursor's children whose
status is not Failed, in children order; a dangling child id raises KeyError
(modelled as none). -/
def candidatesOf (m : List (String × Thought)) : List String → Option (List (String × Thought))
  | [] => some []
  | cid :: rest =>
    match alookup m cid, candidatesOf m rest with
    | some t, some l =>
      some (if t.status = ThoughtStatus.failed then l else (cid, t) :: l)
    | _, _ => none

/-- Descending-by-score order used by candidates.sort(reverse=True); the
insertion sort below is stable, like Python's sort, so the sorted list is
exactly the one the code computes. -/
def scoreDescRel (a b : String × Thought) : Prop := b.2.total_score ≤ a.2.total_score

instance scoreDescRelDecidable : DecidableRel scoreDescRel :=
  fun a b => inferInstanceAs (Decidable (b.2.total_score ≤ a.2.total_score))

def sortCandidates (l : List (String × Thought)) : List (String × Thought) :=
  List.insertionSort scoreDescRel l

/-- Python list slice l[:n] for an int n (negative n counts from the end). -/
def pyTakeSlice {α : Type} (l : List α) (n : Int) : List α :=
  if 0 ≤ n then l.take n.toNat
  else l.take (l.length - (Int.toNat (-n)))

/-- The sampling branch of select_path: pop from the front of the sorted
candidate list min(beam_width, len) times; for a negative beam_width the
range is empty and nothing is selected. The weight computation in that
branch is dead code and does not influence the selection. -/
def samplingTake {α : Type} (l : List α) (n : Int) : List α :=
  let k := min n (l.length : Int)
  if 0 ≤ k then l.take k.toNat else []

/-- content.lower().split() as a set of words. -/
def wordSet (s : String) : List String :=
  (((s.toLower).split (fun c => c.isWhitespace)).filter (fun w => w ≠ "")).dedup

/-- Jaccard similarity of two word sets (each list is deduplicated). -/
def jaccard (a b : List String) : ℚ :=
  let inter := (a.filter (fun w => w ∈ b)).length
  let union := (a ++ b.filter (fun w => ¬ w ∈ a)).length
  if 0 < union then (inter : ℚ) / (union : ℚ) else 0

/-- _is_diverse_enough: true when the thought's word set has Jaccard
similarity at most 1 - threshold to every non-Failed sibling. -/
def isDiverseEnough (thought : Thought) (siblings : List (String × Thought)) (threshold : ℚ) :
    Bool :=
  siblings.all (fun sib =>
    if sib.2.status = ThoughtStatus.failed then true
    else decide (jaccard (wordSet thought.content) (wordSet sib.2.content) ≤ 1 - threshold))

/-- First pass of the diverse branch: walk candidates in sorted order, keep a
candidate while fewer than beam_width are kept and it is diverse enough. -/
def diverseLoop (threshold : ℚ) (bw : Int) :
    List (String × Thought) → List (String × Thought) → List (String × Thought)
  | [], sel => sel
  | c :: cs, sel =>
    if bw ≤ (sel.length : Int) then sel
    else if isDiverseEnough c.2 sel threshold then diverseLoop threshold bw cs (sel ++ [c])
    else diverseLoop threshold bw cs sel

/-- Backfill pass of the diverse branch: append remaining top scorers not
already selected until beam_width is reached. -/
def backfillLoop (bw : Int) :
    List (String × Thought) → List (String × Thought) → List (String × Thought)
  | [], sel => sel
  | c :: cs, sel =>
    let sel1 := if c ∈ sel then sel else sel ++ [c]
    if bw ≤ (sel1.length : Int) then sel1
    else backfillLoop bw cs sel1

def diverseSelect (candidates : List (String × Thought)) (bw : Int) (threshold : ℚ) :
    List (String × Thought) :=
  let first := diverseLoop threshold bw candidates []
  if (first.length : Int) < min bw (candidates.length : Int) then
    backfillLoop bw candidates first
  else first

/-- The strategy dispatch of select_path over the score-sorted candidates.
The final else branch is the sampling branch, which also catches every
unrecognized strategy string. (Greedy's [candidates[0]] equals take 1
because candidates is non-empty whenever this runs.) -/
def chooseCandidates (strategy : String) (candidates : List (String × Thought)) (bw : Int)
    (threshold : ℚ) : List (String × Thought) :=
  if strategy = "greedy" then candidates.take 1
  else if strategy = "beam" then pyTakeSlice candidates bw
  else if strategy = "diverse" then diverseSelect candidates bw threshold
  else samplingTake candidates bw

structure SelectResponse where
  error : Option String := none
  message : Option String := none
  selectedIds : List String := []
  strategy_used : String := ""
deriving DecidableEq, Repr

/-- select_path: compute the non-Failed children of the cursor first and
return the no-viable-candidates signal if there are none (this happens
before the explicit thought_id branch); then selection: explicit thought_id
if given (no status check), otherwise the strategy; every selected thought
is marked Selected and the cursor moves to the first selected thought's id.
An empty selection reaches selected[0] and raises IndexError with no
mutation performed. -/
def selectPath (tree : ThoughtTree) (thought_id : Option String) (beam_width : Int) :
    ThoughtTree × SelectResponse :=
  match alookup tree.thoughts tree.current_id with
  | none => (tree, { error := some "KeyError: current_id" })
  | some current =>
    match candidatesOf tree.thoughts current.children with
    | none => (tree, { error := some "KeyError: child" })
    | some candidates =>
      if candidates = [] then
        (tree, { message := some "No viable candidates. Consider backtracking." })
      else
        let sorted := sortCandidates candidates
        let chosen : Except String (List (String × Thought)) :=
          match thought_id with
          | some tid =>
            match alookup tree.thoughts tid with
            | none => Except.error ("Thought not found: " ++ tid)
            | some t => Except.ok [(tid, t)]
          | none =>
            Except.ok (chooseCandidates tree.strategy sorted beam_width tree.diversity_threshold)
        match chosen with
        | Except.error e => (tree, { error := some e })
        | Except.ok [] => (tree, { error := some "IndexError: list index out of range" })
        | Except.ok (s :: rest) =>
          let sel := s :: rest
          let thoughts1 := sel.foldl
            (fun m p => aupdate m p.1 { p.2 with status := ThoughtStatus.selected }) tree.thoughts
          ({ tree with thoughts := thoughts1, current_id := s.2.id },
            { selectedIds := sel.map (fun p => p.2.id), strategy_used := tree.strategy })

structure ExpandResponse where
  error : Option String := none
  status : Option String := none
deriving DecidableEq, Repr

/-- expand_thought: records the expansion text and notes in metadata and
unconditionally sets the status to Complete, whatever it was before. -/
def expandThought (tree : ThoughtTree) (thought_id expansion notes : String) :
    ThoughtTree × ExpandResponse :=
  match alookup tree.thoughts thought_id with
  | none => (tree, { error := some ("Thought not found: " ++ thought_id) })
  | some t =>
    let t1 : Thought :=
      { t with
        metadata := aupdate (aupdate t.metadata "expansion" expansion) "implementation_notes" notes,
        status := ThoughtStatus.complete }
    ({ tree with thoughts := aupdate tree.thoughts thought_id t1 },
      { status := some "expanded" })

/-- The sibling comprehension of backtrack: non-Failed children of the parent
other than the abandoned thought. -/
def siblingsOf (m : List (String × Thought)) (excludeId : String) :
    List String → Option (List (String × Thought))
  | [] => some []
  | cid :: rest =>
    match alookup m cid, siblingsOf m excludeId rest with
    | some t, some l =>
      some (if ¬ t.status = ThoughtStatus.failed ∧ ¬ cid = excludeId then (cid, t) :: l else l)
    | _, _ => none

structure BacktrackResponse where
  error : Option String := none
  message : Option String := none
  current_id : Option String := none
  alternatives : List String := []
deriving DecidableEq, Repr

/-- backtrack: the cursor thought is marked Failed and the failure reason
recorded in its metadata BEFORE the root check, so calling backtrack at the
root mutates the (cached, in-memory) tree even though the terminal signal
is returned and _save_tree is skipped in that branch. -/
def backtrack (tree : ThoughtTree) (reason : String) : ThoughtTree × BacktrackResponse :=
  match alookup tree.thoughts tree.current_id with
  | none => (tree, { error := some "KeyError: current_id" })
  | some cur =>
    let cur1 : Thought :=
      { cur with
        status := ThoughtStatus.failed,
        metadata := aupdate cur.metadata "failure_reason" reason }
    let tree1 : ThoughtTree := { tree with thoughts := aupdate tree.thoughts tree.current_id cur1 }
    match cur1.parent_id with
    | none => (tree1, { message := some "At root node, cannot backtrack further." })
    | some pid =>
      let tree2 : ThoughtTree := { tree1 with current_id := pid }
      match alookup tree2.thoughts pid with
      | none => (tree2, { error := some "KeyError: parent" })
      | some parent =>
        match siblingsOf tree2.thoughts cur1.id parent.children with
        | none => (tree2, { error := some "KeyError: sibling" })
        | some sibs =>
          (tree2,
            { current_id := some pid,
              alternatives := (sortCandidates sibs).map (fun p => p.2.id) })

/-- set_criteria_weights: validate every key is a known criterion and every
weight lies in [0, 1]; on success merge into criteria_weights. -/
def setCriteriaWeights (tree : ThoughtTree) (weights : List (String × ℚ)) :
    ThoughtTree × Option String :=
  if weights.all (fun p => decide (p.1 ∈ tree.criteria) && decide (0 ≤ p.2 ∧ p.2 ≤ 1)) then
    ({ tree with criteria_weights :=
        weights.foldl (fun m p => aupdate m p.1 p.2) tree.criteria_weights }, none)
  else (tree, some "InvalidArgument")

/-- The error _save_tree propagates to its caller as a function of whether
the disk write raised: the write is wrapped in try/except, the exception is
logged and swallowed, so nothing propagates in either case
(server.py lines 213-224). -/
def saveTreePropagatedError (diskOk : Bool) : Option String :=
  if diskOk then none else none

/-- What the caller of a mutating tool observes: the final in-memory tree and
the error reported to it, if any. -/
structure OpOutcome where
  tree : ThoughtTree
  reportedError : Option String
deriving DecidableEq, Repr

/-- A mutating tool call: run the in-memory mutation (whose own error paths
return before saving), then _save_tree; any persistence failure would have
to surface through saveTreePropagatedError. -/
def runMutatingOp (op : ThoughtTree → ThoughtTree × Option String) (tree : ThoughtTree)
    (diskOk : Bool) : OpOutcome :=
  let r := op tree
  match r.2 with
  | some e => { tree := r.1, reportedError := some e }
  | none =>
    match saveTreePropagatedError diskOk with
    | some e => { tree := r.1, reportedError := some e }
    | none => { tree := r.1, reportedError := none }

/-! ### The best-score bound invariant -/

/-- Every thought's total_score is at most b. -/
def TotalsBounded (m : List (String × Thought)) (b : ℚ) : Prop :=
  ∀ p ∈ m, (p : String × Thought).2.total_score ≤ b

/-- best_score_seen is non-negative and bounds every thought's total_score. -/
def ScoreBound (tree : ThoughtTree) : Prop :=
  0 ≤ tree.best_score_seen ∧ TotalsBounded tree.thoughts tree.best_score_seen

instance totalsBoundedDecidable (m : List (String × Thought)) (b : ℚ) :
    Decidable (TotalsBounded m b) :=
  List.decidableBAll (fun p => (p : String × Thought).2.total_score ≤ b) m

instance scoreBoundDecidable (tree : ThoughtTree) : Decidable (ScoreBound tree) :=
  inferInstanceAs
    (Decidable (0 ≤ tree.best_score_seen ∧ TotalsBounded tree.thoughts tree.best_score_seen))

/-- One public mutating operation applied to a tree (the state part of each
tool; identifiers for generate_thoughts are explicit parameters). -/
inductive Step : ThoughtTree → ThoughtTree → Prop where
  | generate (tree : ThoughtTree) (items : List (String × NewThought)) :
      Step tree (generateThoughts tree items)
  | evaluate (tree : ThoughtTree) (evals : List EvalEntry) :
      Step tree (evaluateThoughts tree evals).1
  | select (tree : ThoughtTree) (tid : Option String) (bw : Int) :
      Step tree (selectPath tree tid bw).1
  | expand (tree : ThoughtTree) (tid ex notes : String) :
      Step tree (expandThought tree tid ex notes).1
  | back (tree : ThoughtTree) (reason : String) :
      Step tree (backtrack tree reason).1
  | weights (tree : ThoughtTree) (w : List (String × ℚ)) :
      Step tree (setCriteriaWeights tree w).1

/-- Reachability by any sequence of operations. -/
inductive Reaches : ThoughtTree → ThoughtTree → Prop where
  | refl (tree : ThoughtTree) : Reaches tree tree
  | tail {t u v : ThoughtTree} : Reaches t u → Step u v → Reaches t v

/-! ### Concrete trees used by witnesses and counterexamples -/

/-- A fresh tree exactly as create_tree builds it. -/
def fxFresh : ThoughtTree := (createTree "p" none "greedy" 5 "t1" "r1").1

/-- The root thought of fxFresh. -/
def fxFreshRoot : Thought :=
  { id := "r1",
    content := "Problem: p",
    rationale := "Root node representing the initial problem state",
    status := ThoughtStatus.selected,
    depth := 0 }

/-- fxFresh after generate_thoughts attached two pending children a and b. -/
def fxTwoKids : ThoughtTree :=
  generateThoughts fxFresh
    [("a", { content := "one", rationale := "x" }), ("b", { content := "two", rationale := "y" })]

/-- The child a of fxTwoKids. -/
def fxThoughtA : Thought :=
  { id := "a", content := "one", rationale := "x", parent_id := some "r1", depth := 1 }

/-- An evaluation of a with uniform scores of 8. -/
def fxEvalA : EvalEntry :=
  { thought_id := "a", scores := [("feasibility", 8), ("complexity", 8), ("risk", 8)] }

/-- A Failed child thought. -/
def fxThoughtB : Thought :=
  { id := "b", parent_id := some "r1", depth := 1, status := ThoughtStatus.failed }

/-- The root with children a and b. -/
def fxRootAB : Thought :=
  { id := "r1", children := ["a", "b"], status := ThoughtStatus.selected }

/-- A tree whose cursor has one Pending child a and one Failed child b. -/
def fxFailedB : ThoughtTree :=
  { id := "t1",
    problem := "p",
    root_id := "r1",
    current_id := "r1",
    thoughts :=
      [("r1", fxRootAB),
       ("a", { id := "a", parent_id := some "r1", depth := 1 }),
       ("b", fxThoughtB)],
    criteria := ["feasibility", "complexity", "risk"],
    criteria_weights := [("feasibility", 1), ("complexity", 1), ("risk", 1)],
    strategy := "greedy",
    max_depth := 5 }

/-- A tree whose cursor's children are all Failed. -/
def fxAllFailed : ThoughtTree :=
  { fxFailedB with
    thoughts :=
      [("r1", fxRootAB),
       ("a", { id := "a", parent_id := some "r1", depth := 1, status := ThoughtStatus.failed }),
       ("b", fxThoughtB)] }

/-- Evaluated children with distinct scores, for the greedy-selection claims. -/
def fxA1 : Thought :=
  { id := "a1",
    parent_id := some "r1",
    depth := 1,
    status := ThoughtStatus.uncertain,
    scores := [("feasibility", 5)],
    total_score := 5 }

def fxA2 : Thought :=
  { id := "a2",
    parent_id := some "r1",
    depth := 1,
    status := ThoughtStatus.uncertain,
    scores := [("feasibility", 3)],
    total_score := 3 }

def fxScoredRoot : Thought :=
  { id := "r1", children := ["a1", "a2"], status := ThoughtStatus.selected }

def fxScored : ThoughtTree :=
  { id := "t2",
    problem := "p",
    root_id := "r1",
    current_id := "r1",
    thoughts := [("r1", fxScoredRoot), ("a1", fxA1), ("a2", fxA2)],
    criteria := ["feasibility"],
    criteria_weights := [("feasibility", 1)],
    strategy := "greedy",
    max_depth := 5,
    best_score_seen := 5 }

/-- A tree with a positive pruning bound, for the pruning-direction claims. -/
def fxPruneTree : ThoughtTree :=
  { id := "t3", root_id := "r", current_id := "r", best_score_seen := 10 }

def fxShallow : Thought := { id := "x", total_score := 4, depth := 0 }

def fxDeep : Thought := { id := "y", total_score := 4, depth := 3 }

def fxBeam : ThoughtTree := { fxTwoKids with strategy := "beam" }

def fxSamp : ThoughtTree := { fxTwoKids with strategy := "sampling" }

/-- Re-evaluation inputs: thought a scored 9 everywhere, then re-scored 3. -/
def fxEvalHigh : EvalEntry :=
  { thought_id := "a", scores := [("feasibility", 9), ("complexity", 9), ("risk", 9)] }

def fxEvalLow : EvalEntry :=
  { thought_id := "a", scores := [("feasibility", 3), ("complexity", 3), ("risk", 3)] }

def fxReEval : ThoughtTree :=
  (evaluateThoughts (evaluateThoughts fxTwoKids [fxEvalHigh]).1 [fxEvalLow]).1

/-- The total_score of every evaluated (scores non-empty) thought of a tree. -/
def evaluatedTotals (tree : ThoughtTree) : List ℚ :=
  (tree.thoughts.filter (fun p => decide (¬ (p : String × Thought).2.scores = []))).map
    (fun p => (p : String × Thought).2.total_score)

/-- A concrete mutating operation, used to exhibit the swallowed persistence
failure: it evaluates thought a and reports no operation-level error. -/
def evalSixOp (tree : ThoughtTree) : ThoughtTree × Option String :=
  ((evaluateThoughts tree
    [{ thought_id := "a", scores := [("feasibility", 6), ("complexity", 6), ("risk", 6)] }]).1,
    none)

/-- fxTwoKids with an unrecognized strategy string. -/
def fxMystery : ThoughtTree := { fxTwoKids with strategy := "mystery" }

/-! ### Helper lemmas about sorting, candidates and selection -/

instance : IsTotal (String × Thought) scoreDescRel :=
  ⟨fun a b => le_total b.2.total_score a.2.total_score⟩

instance : IsTrans (String × Thought) scoreDescRel :=
  ⟨fun _ _ _ h1 h2 => le_trans h2 h1⟩

theorem alookup_mem {α : Type} {m : List (String × α)} {k : String} {v : α}
    (h : alookup m k = some v) : (k, v) ∈ m := by
  induction m with
  | nil => simp [alookup] at h
  | cons p rest ih =>
    obtain ⟨k1, v1⟩ := p
    rw [alookup] at h
    by_cases hk : k1 = k
    · rw [if_pos hk] at h
      injection h with h2
      subst hk
      subst h2
      exact List.mem_cons_self _ _
    · rw [if_neg hk] at h
      exact List.mem_cons_of_mem _ (ih h)

theorem mem_aupdate {α : Type} {m : List (String × α)} {k : String} {v : α}
    {q : String × α} (h : q ∈ aupdate m k v) : q = (k, v) ∨ q ∈ m := by
  induction m with
  | nil =>
    rw [aupdate] at h
    exact Or.inl (List.mem_singleton.mp h)
  | cons p rest ih =>
    obtain ⟨k1, v1⟩ := p
    rw [aupdate] at h
    by_cases hk : k1 = k
    · rw [if_pos hk] at h
      rcases List.mem_cons.mp h with h1 | h1
      · exact Or.inl h1
      · exact Or.inr (List.mem_cons_of_mem _ h1)
    · rw [if_neg hk] at h
      rcases List.mem_cons.mp h with h1 | h1
      · refine Or.inr ?_
        rw [h1]
        exact List.mem_cons_self _ _
      · rcases ih h1 with h2 | h2
        · exact Or.inl h2
        · exact Or.inr (List.mem_cons_of_mem _ h2)

theorem alookup_aupdate_self {α : Type} (m : List (String × α)) (k : String) (v : α) :
    alookup (aupdate m k v) k = some v := by
  induction m with
  | nil => simp [aupdate, alookup]
  | cons p rest ih =>
    obtain ⟨k1, v1⟩ := p
    rw [aupdate]
    by_cases hk : k1 = k
    · rw [if_pos hk, alookup, if_pos rfl]
    · rw [if_neg hk, alookup, if_neg hk]
      exact ih

theorem alookup_aupdate_ne {α : Type} (m : List (String × α)) {k k2 : String} (v : α)
    (h : k2 ≠ k) : alookup (aupdate m k v) k2 = alookup m k2 := by
  induction m with
  | nil => simp [aupdate, alookup, Ne.symm h]
  | cons p rest ih =>
    obtain ⟨k1, v1⟩ := p
    by_cases hk : k1 = k
    · subst hk
      simp [aupdate, alookup, Ne.symm h]
    · simp [aupdate, alookup, hk, ih]

theorem mem_sortCandidates {l : List (String × Thought)} {x : String × Thought} :
    x ∈ sortCandidates l ↔ x ∈ l := by
  unfold sortCandidates
  exact List.mem_insertionSort scoreDescRel

theorem sortCandidates_sorted (l : List (String × Thought)) :
    List.Sorted scoreDescRel (sortCandidates l) :=
  List.sorted_insertionSort scoreDescRel l

/-- The head of the score-sorted candidate list scores at least as high as
every candidate. -/
theorem sortCandidates_head_max {l : List (String × Thought)} {h : String × Thought}
    {t : List (String × Thought)} (heq : sortCandidates l = h :: t) :
    ∀ x ∈ l, x.2.total_score ≤ h.2.total_score := by
  intro x hx
  have hx2 : x ∈ sortCandidates l := mem_sortCandidates.mpr hx
  rw [heq] at hx2
  rcases List.mem_cons.mp hx2 with h1 | h1
  · rw [h1]
  · have hs := sortCandidates_sorted l
    rw [heq] at hs
    exact List.rel_of_sorted_cons hs x h1

theorem candidatesOf_mem {m : List (String × Thought)} :
    ∀ {children : List String} {l : List (String × Thought)},
      candidatesOf m children = some l →
      ∀ p ∈ l, alookup m p.1 = some p.2 ∧ ¬ p.2.status = ThoughtStatus.failed := by
  intro children
  induction children with
  | nil =>
    intro l h p hp
    rw [candidatesOf] at h
    injection h with h
    rw [← h] at hp
    simp at hp
  | cons cid rest ih =>
    intro l h p hp
    rw [candidatesOf] at h
    cases hc : alookup m cid with
    | none => rw [hc] at h; simp at h
    | some t =>
      rw [hc] at h
      cases hr : candidatesOf m rest with
      | none => rw [hr] at h; simp at h
      | some l2 =>
        rw [hr] at h
        injection h with h
        rw [← h] at hp
        by_cases hf : t.status = ThoughtStatus.failed
        · rw [if_pos hf] at hp
          exact ih hr p hp
        · rw [if_neg hf] at hp
          rcases List.mem_cons.mp hp with h1 | h1
          · rw [h1]
            exact ⟨hc, hf⟩
          · exact ih hr p h1

/-- When every child is present and Failed, the candidate list is empty. -/
theorem candidatesOf_all_failed {m : List (String × Thought)} :
    ∀ {children : List String},
      (∀ cid ∈ children, ∃ t, alookup m cid = some t ∧ t.status = ThoughtStatus.failed) →
      candidatesOf m children = some [] := by
  intro children
  induction children with
  | nil => intro _; rfl
  | cons cid rest ih =>
    intro h
    obtain ⟨t, ht, hf⟩ := h cid (List.mem_cons_self _ _)
    rw [candidatesOf, ht, ih (fun c hc => h c (List.mem_cons_of_mem _ hc))]
    simp [hf]

theorem pyTakeSlice_subset {α : Type} (l : List α) (n : Int) :
    ∀ x ∈ pyTakeSlice l n, x ∈ l := by
  intro x hx
  unfold pyTakeSlice at hx
  by_cases h : 0 ≤ n
  · rw [if_pos h] at hx
    exact List.take_subset _ _ hx
  · rw [if_neg h] at hx
    exact List.take_subset _ _ hx

theorem samplingTake_subset {α : Type} (l : List α) (n : Int) :
    ∀ x ∈ samplingTake l n, x ∈ l := by
  intro x hx
  unfold samplingTake at hx
  by_cases h : 0 ≤ min n (l.length : Int)
  · rw [if_pos h] at hx
    exact List.take_subset _ _ hx
  · rw [if_neg h] at hx
    simp at hx

theorem diverseLoop_mem (threshold : ℚ) (bw : Int) :
    ∀ (cs sel : List (String × Thought)) (x : String × Thought),
      x ∈ diverseLoop threshold bw cs sel → x ∈ sel ∨ x ∈ cs := by
  intro cs
  induction cs with
  | nil =>
    intro sel x hx
    rw [diverseLoop] at hx
    exact Or.inl hx
  | cons c rest ih =>
    intro sel x hx
    rw [diverseLoop] at hx
    by_cases h1 : bw ≤ (sel.length : Int)
    · rw [if_pos h1] at hx
      exact Or.inl hx
    · rw [if_neg h1] at hx
      by_cases h2 : isDiverseEnough c.2 sel threshold
      · rw [if_pos h2] at hx
        rcases ih (sel ++ [c]) x hx with h3 | h3
        · rcases List.mem_append.mp h3 with h4 | h4
          · exact Or.inl h4
          · exact Or.inr (List.mem_singleton.mp h4 ▸ List.mem_cons_self _ _)
        · exact Or.inr (List.mem_cons_of_mem _ h3)
      · rw [if_neg h2] at hx
        rcases ih sel x hx with h3 | h3
        · exact Or.inl h3
        · exact Or.inr (List.mem_cons_of_mem _ h3)

theorem backfillLoop_mem (bw : Int) :
    ∀ (cs sel : List (String × Thought)) (x : String × Thought),
      x ∈ backfillLoop bw cs sel → x ∈ sel ∨ x ∈ cs := by
  intro cs
  induction cs with
  | nil =>
    intro sel x hx
    rw [backfillLoop] at hx
    exact Or.inl hx
  | cons c rest ih =>
    intro sel x hx
    rw [backfillLoop] at hx
    by_cases hmem : c ∈ sel
    · rw [if_pos hmem] at hx
      by_cases h1 : bw ≤ (sel.length : Int)
      · rw [if_pos h1] at hx
        exact Or.inl hx
      · rw [if_neg h1] at hx
        rcases ih sel x hx with h3 | h3
        · exact Or.inl h3
        · exact Or.inr (List.mem_cons_of_mem _ h3)
    · rw [if_neg hmem] at hx
      by_cases h1 : bw ≤ ((sel ++ [c]).length : Int)
      · rw [if_pos h1] at hx
        rcases List.mem_append.mp hx with h4 | h4
        · exact Or.inl h4
        · exact Or.inr (List.mem_singleton.mp h4 ▸ List.mem_cons_self _ _)
      · rw [if_neg h1] at hx
        rcases ih (sel ++ [c]) x hx with h3 | h3
        · rcases List.mem_append.mp h3 with h4 | h4
          · exact Or.inl h4
          · exact Or.inr (List.mem_singleton.mp h4 ▸ List.mem_cons_self _ _)
        · exact Or.inr (List.mem_cons_of_mem _ h3)

theorem diverseSelect_subset (candidates : List (String × Thought)) (bw : Int) (thr : ℚ) :
    ∀ x ∈ diverseSelect candidates bw thr, x ∈ candidates := by
  intro x hx
  unfold diverseSelect at hx
  by_cases h : ((diverseLoop thr bw candidates []).length : Int) <
      min bw (candidates.length : Int)
  · rw [if_pos h] at hx
    rcases backfillLoop_mem bw candidates (diverseLoop thr bw candidates []) x hx with h1 | h1
    · rcases diverseLoop_mem thr bw candidates [] x h1 with h2 | h2
      · simp at h2
      · exact h2
    · exact h1
  · rw [if_neg h] at hx
    rcases diverseLoop_mem thr bw candidates [] x hx with h2 | h2
    · simp at h2
    · exact h2

theorem chooseCandidates_subset (strategy : String) (candidates : List (String × Thought))
    (bw : Int) (thr : ℚ) :
    ∀ x ∈ chooseCandidates strategy candidates bw thr, x ∈ candidates := by
  intro x hx
  unfold chooseCandidates at hx
  by_cases h1 : strategy = "greedy"
  · rw [if_pos h1] at hx
    exact List.take_subset _ _ hx
  · rw [if_neg h1] at hx
    by_cases h2 : strategy = "beam"
    · rw [if_pos h2] at hx
      exact pyTakeSlice_subset _ _ x hx
    · rw [if_neg h2] at hx
      by_cases h3 : strategy = "diverse"
      · rw [if_pos h3] at hx
        exact diverseSelect_subset _ _ _ x hx
      · rw [if_neg h3] at hx
        exact samplingTake_subset _ _ x hx

theorem TotalsBounded.mono {m : List (String × Thought)} {b b2 : ℚ}
    (h : TotalsBounded m b) (hb : b ≤ b2) : TotalsBounded m b2 :=
  fun p hp => le_trans (h p hp) hb

theorem TotalsBounded.update {m : List (String × Thought)} {b : ℚ} {k : String} {v : Thought}
    (h : TotalsBounded m b) (hv : v.total_score ≤ b) : TotalsBounded (aupdate m k v) b := by
  intro p hp
  rcases mem_aupdate hp with h1 | h1
  · rw [h1]
    exact hv
  · exact h p h1

/-- Case analysis of one evaluation step: either the id is unknown and the
tree is untouched, or best_score_seen becomes max(old, total) and exactly
the named thought is rewritten with the new scores and total. -/
theorem evalStep_cases (tree : ThoughtTree) (e : EvalEntry) :
    (alookup tree.thoughts e.thought_id = none ∧ (evalStep tree e).1 = tree) ∨
    ∃ th, alookup tree.thoughts e.thought_id = some th ∧
      ∃ st md,
        (evalStep tree e).1 =
          { tree with
            best_score_seen :=
              if tree.best_score_seen < calculateWeightedScore e.scores tree.criteria_weights
              then calculateWeightedScore e.scores tree.criteria_weights
              else tree.best_score_seen,
            thoughts := aupdate tree.thoughts e.thought_id
              { th with
                scores := e.scores,
                total_score := calculateWeightedScore e.scores tree.criteria_weights,
                status := st,
                metadata := md } } := by
  cases h : alookup tree.thoughts e.thought_id with
  | none =>
    refine Or.inl ⟨rfl, ?_⟩
    unfold evalStep
    rw [h]
  | some th =>
    refine Or.inr ⟨th, rfl, ?_⟩
    unfold evalStep
    rw [h]
    dsimp only
    split_ifs <;>
      first
      | exact ⟨ThoughtStatus.failed,
          aupdate (aupdate th.metadata "pruned" "true") "prune_reason" pruneReasonText, rfl⟩
      | exact ⟨classifyStatus (calculateWeightedScore e.scores tree.criteria_weights)
          (minScore e.scores), th.metadata, rfl⟩

theorem evalStep_best_le (tree : ThoughtTree) (e : EvalEntry) :
    tree.best_score_seen ≤ (evalStep tree e).1.best_score_seen := by
  rcases evalStep_cases tree e with ⟨-, heq⟩ | ⟨th, -, st, md, heq⟩
  · rw [heq]
  · rw [heq]
    dsimp only
    split_ifs with h2
    · exact le_of_lt h2
    · exact le_refl _

theorem evalStep_preserves (tree : ThoughtTree) (e : EvalEntry) (h : ScoreBound tree) :
    ScoreBound (evalStep tree e).1 := by
  rcases evalStep_cases tree e with ⟨-, heq⟩ | ⟨th, -, st, md, heq⟩
  · rw [heq]
    exact h
  · rw [heq]
    refine ⟨?_, ?_⟩
    · dsimp only
      split_ifs with h2
      · exact le_trans h.1 (le_of_lt h2)
      · exact h.1
    · dsimp only
      apply TotalsBounded.update
      · apply h.2.mono
        split_ifs with h2
        · exact le_of_lt h2
        · exact le_refl _
      · show calculateWeightedScore e.scores tree.criteria_weights ≤ _
        split_ifs with h2
        · exact le_refl _
        · exact le_of_not_lt h2

theorem evaluateThoughts_best_le :
    ∀ (evals : List EvalEntry) (tree : ThoughtTree),
      tree.best_score_seen ≤ (evaluateThoughts tree evals).1.best_score_seen := by
  intro evals
  induction evals with
  | nil => intro tree; exact le_refl _
  | cons e rest ih =>
    intro tree
    rw [evaluateThoughts]
    exact le_trans (evalStep_best_le tree e) (ih (evalStep tree e).1)

theorem evaluateThoughts_preserves :
    ∀ (evals : List EvalEntry) (tree : ThoughtTree),
      ScoreBound tree → ScoreBound (evaluateThoughts tree evals).1 := by
  intro evals
  induction evals with
  | nil => intro tree h; exact h
  | cons e rest ih =>
    intro tree h
    rw [evaluateThoughts]
    exact ih (evalStep tree e).1 (evalStep_preserves tree e h)

/-- Case analysis of select_path: either the tree is returned untouched (on
KeyError, no viable candidates, unknown explicit id, or an empty selection),
or a non-empty selection of thoughts that are present in the tree (and, for
strategy-based selection, non-Failed) is marked Selected and the cursor
moves to the first selected thought's id. -/
theorem selectPath_shape (tree : ThoughtTree) (tid : Option String) (bw : Int) :
    (selectPath tree tid bw).1 = tree ∨
    ∃ (s : String × Thought) (rest : List (String × Thought)),
      (∀ p ∈ s :: rest, alookup tree.thoughts p.1 = some p.2) ∧
      (tid = none → ∀ p ∈ s :: rest, ¬ (p : String × Thought).2.status = ThoughtStatus.failed) ∧
      (selectPath tree tid bw).1 =
        { tree with
          thoughts := (s :: rest).foldl
            (fun m p => aupdate m p.1 { p.2 with status := ThoughtStatus.selected }) tree.thoughts,
          current_id := s.2.id } := by
  unfold selectPath
  cases hcur : alookup tree.thoughts tree.current_id with
  | none => exact Or.inl rfl
  | some current =>
    dsimp only
    cases hcand : candidatesOf tree.thoughts current.children with
    | none => exact Or.inl rfl
    | some candidates =>
      dsimp only
      by_cases hemp : candidates = []
      · rw [if_pos hemp]
        exact Or.inl rfl
      · rw [if_neg hemp]
        cases tid with
        | some t0 =>
          dsimp only
          cases halo : alookup tree.thoughts t0 with
          | none => exact Or.inl rfl
          | some th0 =>
            dsimp only
            refine Or.inr ⟨(t0, th0), [], ?_, ?_, rfl⟩
            · intro p hp
              have h1 := List.mem_singleton.mp hp
              rw [h1]
              exact halo
            · intro hnone
              exact nomatch hnone
        | none =>
          dsimp only
          cases hch : chooseCandidates tree.strategy (sortCandidates candidates) bw
              tree.diversity_threshold with
          | nil =>
            exact Or.inl rfl
          | cons s rest =>
            dsimp only
            refine Or.inr ⟨s, rest, ?_, ?_, rfl⟩
            · intro p hp
              have h1 : p ∈ chooseCandidates tree.strategy (sortCandidates candidates) bw
                  tree.diversity_threshold := by
                rw [hch]
                exact hp
              have h2 := mem_sortCandidates.mp (chooseCandidates_subset _ _ _ _ p h1)
              exact (candidatesOf_mem hcand p h2).1
            · intro _ p hp
              have h1 : p ∈ chooseCandidates tree.strategy (sortCandidates candidates) bw
                  tree.diversity_threshold := by
                rw [hch]
                exact hp
              have h2 := mem_sortCandidates.mp (chooseCandidates_subset _ _ _ _ p h1)
              exact (candidatesOf_mem hcand p h2).2

theorem selectPath_best_eq (tree : ThoughtTree) (tid : Option String) (bw : Int) :
    (selectPath tree tid bw).1.best_score_seen = tree.best_score_seen := by
  rcases selectPath_shape tree tid bw with h | ⟨s, rest, -, -, h⟩ <;> rw [h]

theorem foldl_setSelected_bounded {b : ℚ} :
    ∀ (sel m : List (String × Thought)),
      TotalsBounded m b → (∀ p ∈ sel, (p : String × Thought).2.total_score ≤ b) →
      TotalsBounded (sel.foldl
        (fun m p => aupdate m p.1 { p.2 with status := ThoughtStatus.selected }) m) b := by
  intro sel
  induction sel with
  | nil => intro m hm _; exact hm
  | cons p rest ih =>
    intro m hm hsel
    rw [List.foldl_cons]
    apply ih
    · exact hm.update (hsel p (List.mem_cons_self _ _))
    · intro q hq
      exact hsel q (List.mem_cons_of_mem _ hq)

theorem selectPath_preserves (tree : ThoughtTree) (tid : Option String) (bw : Int)
    (h : ScoreBound tree) : ScoreBound (selectPath tree tid bw).1 := by
  rcases selectPath_shape tree tid bw with heq | ⟨s, rest, hmem, -, heq⟩
  · rw [heq]
    exact h
  · rw [heq]
    refine ⟨h.1, ?_⟩
    apply foldl_setSelected_bounded _ _ h.2
    intro p hp
    exact h.2 _ (alookup_mem (hmem p hp))

theorem genLoop_bounded {b : ℚ} (hb : 0 ≤ b) :
    ∀ (items : List (String × NewThought)) (m : List (String × Thought)) (ck : String)
      (cur : Thought), TotalsBounded m b → cur.total_score ≤ b →
      TotalsBounded (genLoop m ck cur items) b := by
  intro items
  induction items with
  | nil =>
    intro m ck cur hm _
    rw [genLoop]
    exact hm
  | cons p rest ih =>
    obtain ⟨nid, nt⟩ := p
    intro m ck cur hm hcur
    rw [genLoop]
    exact ih _ _ _ ((hm.update (by exact hb)).update (by exact hcur)) (by exact hcur)

theorem generateThoughts_preserves (tree : ThoughtTree) (items : List (String × NewThought))
    (h : ScoreBound tree) : ScoreBound (generateThoughts tree items) := by
  unfold generateThoughts
  cases hcur : alookup tree.thoughts tree.current_id with
  | none => exact h
  | some cur =>
    exact ⟨h.1, genLoop_bounded h.1 items tree.thoughts tree.current_id cur h.2
      (h.2 _ (alookup_mem hcur))⟩

theorem generateThoughts_best_eq (tree : ThoughtTree) (items : List (String × NewThought)) :
    (generateThoughts tree items).best_score_seen = tree.best_score_seen := by
  unfold generateThoughts
  cases alookup tree.thoughts tree.current_id <;> rfl

theorem expandThought_preserves (tree : ThoughtTree) (tid ex notes : String)
    (h : ScoreBound tree) : ScoreBound (expandThought tree tid ex notes).1 := by
  unfold expandThought
  cases ht : alookup tree.thoughts tid with
  | none => exact h
  | some t => exact ⟨h.1, h.2.update (h.2 _ (alookup_mem ht))⟩

theorem expandThought_best_eq (tree : ThoughtTree) (tid ex notes : String) :
    (expandThought tree tid ex notes).1.best_score_seen = tree.best_score_seen := by
  unfold expandThought
  cases alookup tree.thoughts tid <;> rfl

theorem backtrack_preserves (tree : ThoughtTree) (reason : String)
    (h : ScoreBound tree) : ScoreBound (backtrack tree reason).1 := by
  simp only [backtrack]
  split
  · exact h
  · rename_i cur hcur
    have hcb : cur.total_score ≤ tree.best_score_seen := h.2 _ (alookup_mem hcur)
    split
    · exact ⟨h.1, h.2.update hcb⟩
    · split
      · exact ⟨h.1, h.2.update hcb⟩
      · split
        · exact ⟨h.1, h.2.update hcb⟩
        · exact ⟨h.1, h.2.update hcb⟩

theorem backtrack_best_eq (tree : ThoughtTree) (reason : String) :
    (backtrack tree reason).1.best_score_seen = tree.best_score_seen := by
  simp only [backtrack]
  split
  · rfl
  · split
    · rfl
    · split
      · rfl
      · split <;> rfl

theorem setCriteriaWeights_preserves (tree : ThoughtTree) (w : List (String × ℚ))
    (h : ScoreBound tree) : ScoreBound (setCriteriaWeights tree w).1 := by
  unfold setCriteriaWeights
  split_ifs <;> exact ⟨h.1, h.2⟩

theorem setCriteriaWeights_best_eq (tree : ThoughtTree) (w : List (String × ℚ)) :
    (setCriteriaWeights tree w).1.best_score_seen = tree.best_score_seen := by
  unfold setCriteriaWeights
  split_ifs <;> rfl

theorem step_preserves {t u : ThoughtTree} (h : Step t u) (hs : ScoreBound t) : ScoreBound u := by
  cases h with
  | generate items => exact generateThoughts_preserves t items hs
  | evaluate evals => exact evaluateThoughts_preserves evals t hs
  | select tid bw => exact selectPath_preserves t tid bw hs
  | expand tid ex notes => exact expandThought_preserves t tid ex notes hs
  | back reason => exact backtrack_preserves t reason hs
  | weights w => exact setCriteriaWeights_preserves t w hs

theorem step_best_le {t u : ThoughtTree} (h : Step t u) :
    t.best_score_seen ≤ u.best_score_seen := by
  cases h with
  | generate items => exact le_of_eq (generateThoughts_best_eq t items).symm
  | evaluate evals => exact evaluateThoughts_best_le evals t
  | select tid bw => exact le_of_eq (selectPath_best_eq t tid bw).symm
  | expand tid ex notes => exact le_of_eq (expandThought_best_eq t tid ex notes).symm
  | back reason => exact le_of_eq (backtrack_best_eq t reason).symm
  | weights w => exact le_of_eq (setCriteriaWeights_best_eq t w).symm

theorem reaches_preserves {t u : ThoughtTree} (h : Reaches t u) (hs : ScoreBound t) :
    ScoreBound u := by
  induction h with
  | refl => exact hs
  | tail _ hstep ih => exact step_preserves hstep ih

theorem reaches_best_le {t u : ThoughtTree} (h : Reaches t u) :
    t.best_score_seen ≤ u.best_score_seen := by
  induction h with
  | refl => exact le_refl _
  | tail _ hstep ih => exact le_trans ih (step_best_le hstep)

/-! ### Further helper lemmas -/

theorem alookup_cons_self {α : Type} (k : String) (v : α) (rest : List (String × α)) :
    alookup ((k, v) :: rest) k = some v := by
  rw [alookup, if_pos rfl]

theorem if_lt_max (a b : ℚ) : (if a < b then b else a) = max a b := by
  split_ifs with h
  · exact (max_eq_right (le_of_lt h)).symm
  · exact (max_eq_left (le_of_not_lt h)).symm

theorem statusLabel_ne_pruned (s : ThoughtStatus) : ¬ statusLabel s = "pruned" := by
  cases s <;> decide

theorem classifyStatus_promising_iff (a m : ℚ) :
    classifyStatus a m = ThoughtStatus.promising ↔ (7 ≤ a ∧ 5 ≤ m) := by
  unfold classifyStatus
  split_ifs with h1 h2
  · exact iff_of_true rfl h1
  · exact iff_of_false (by simp) h1
  · exact iff_of_false (by simp) h1

theorem classifyStatus_uncertain_iff (a m : ℚ) :
    classifyStatus a m = ThoughtStatus.uncertain ↔
      (5 ≤ a ∧ 3 ≤ m ∧ ¬ (7 ≤ a ∧ 5 ≤ m)) := by
  unfold classifyStatus
  split_ifs with h1 h2
  · exact iff_of_false (by simp) (fun h => h.2.2 h1)
  · exact iff_of_true rfl ⟨h2.1, h2.2, h1⟩
  · exact iff_of_false (by simp) (fun h => h2 ⟨h.1, h.2.1⟩)

theorem classifyStatus_failed_iff (a m : ℚ) :
    classifyStatus a m = ThoughtStatus.failed ↔ ¬ (5 ≤ a ∧ 3 ≤ m) := by
  unfold classifyStatus
  split_ifs with h1 h2
  · exact iff_of_false (by simp)
      (not_not_intro ⟨by linarith [h1.1], by linarith [h1.2]⟩)
  · exact iff_of_false (by simp) (not_not_intro h2)
  · exact iff_of_true rfl h2

/-- The pruning test is monotone in depth: with equal total_score and a
positive bound, a deeper thought is pruned whenever a shallower one is. -/
theorem shouldPrune_depth_mono (tr : ThoughtTree) (hb : 0 < tr.best_score_seen)
    (t1 t2 : Thought) (hts : t2.total_score = t1.total_score) (hd : t1.depth ≤ t2.depth)
    (h : shouldPrune t1 tr = true) : shouldPrune t2 tr = true := by
  unfold shouldPrune at h ⊢
  rw [if_neg (not_le.mpr hb)] at h ⊢
  rw [decide_eq_true_eq] at h ⊢
  rw [hts]
  refine lt_of_lt_of_le h ?_
  have hdq : (t1.depth : ℚ) ≤ (t2.depth : ℚ) := by exact_mod_cast hd
  have hth : (1 : ℚ) / 2 + 1 / 10 * (t1.depth : ℚ) ≤ 1 / 2 + 1 / 10 * (t2.depth : ℚ) := by
    linarith
  exact mul_le_mul_of_nonneg_left hth (le_of_lt hb)

theorem foldl_setSelected_alookup_ne {k : String} :
    ∀ (sel m : List (String × Thought)), (∀ p ∈ sel, ¬ (p : String × Thought).1 = k) →
      alookup (sel.foldl
        (fun m p => aupdate m p.1 { p.2 with status := ThoughtStatus.selected }) m) k =
        alookup m k := by
  intro sel
  induction sel with
  | nil => intro m _; rfl
  | cons p rest ih =>
    intro m hne
    rw [List.foldl_cons]
    rw [ih _ (fun q hq => hne q (List.mem_cons_of_mem _ hq))]
    exact alookup_aupdate_ne m _ (fun hkk => hne p (List.mem_cons_self _ _) hkk.symm)

/-! ### The claims -/

/-- Claim C10 (confirmed): when every child of the cursor is Failed,
select_path returns the no-viable-candidates signal and leaves the tree
untouched, even when an explicit thought_id naming an existing thought is
supplied — the candidate check runs before the explicit-selection branch. -/
theorem c10_no_viable_blocks_explicit (tree : ThoughtTree) (tid : Option String) (bw : Int)
    (cur : Thought)
    (hc : alookup tree.thoughts tree.current_id = some cur)
    (hall : ∀ cid ∈ cur.children, ∃ t, alookup tree.thoughts cid = some t ∧
      t.status = ThoughtStatus.failed) :
    selectPath tree tid bw =
      (tree, { message := some "No viable candidates. Consider backtracking." }) := by
  unfold selectPath
  rw [hc]
  dsimp only
  rw [candidatesOf_all_failed hall]
  dsimp only
  rw [if_pos rfl]

/-- Witness for C10 at a concrete tree: both children of the cursor are
Failed and the explicit thought_id "b" names an existing thought, yet the
no-viable-candidates signal is returned. -/
theorem c10_witness :
    selectPath fxAllFailed (some "b") 3 =
      (fxAllFailed, { message := some "No viable candidates. Consider backtracking." }) := by
  refine c10_no_viable_blocks_explicit fxAllFailed (some "b") 3 fxRootAB rfl ?_
  intro cid hcid
  have h3 : cid = "a" ∨ cid = "b" := by simpa [fxRootAB] using hcid
  rcases h3 with rfl | rfl
  · exact ⟨_, rfl, rfl⟩
  · exact ⟨_, rfl, rfl⟩

/-- Claim C6 (corrected), counterexample: create_tree with max_depth = 0
succeeds (no InvalidArgument; the tree is created with max_depth 0 and its
root present), and an unrecognized strategy does not fall back to Greedy: on
a cursor with two viable children and beam_width 2 it selects two thoughts
(the sampling branch), where Greedy would select exactly one. -/
theorem c6_counterexample :
    (createTree "p" none "greedy" 0 "t1" "r1").2.error = none ∧
    (createTree "p" none "greedy" 0 "t1" "r1").1.max_depth = 0 ∧
    ((alookup (createTree "p" none "greedy" 0 "t1" "r1").1.thoughts "r1").isSome = true) ∧
    (selectPath fxMystery none 2).2.selectedIds = ["a", "b"] ∧
    (selectPath { fxMystery with strategy := "greedy" } none 2).2.selectedIds = ["a"] := by
  decide

/-- Claim C6 (corrected), amended: create_tree performs no validation at
all — for every max_depth (including values below 1) and every strategy
string it succeeds, reporting no error and storing max_depth and strategy
exactly as given, with a Selected root at depth 0 as the cursor. -/
theorem c6_amended (problem : String) (criteria : Option (List String)) (strategy : String)
    (max_depth : Int) (tid rid : String) :
    (createTree problem criteria strategy max_depth tid rid).2.error = none ∧
    (createTree problem criteria strategy max_depth tid rid).1.max_depth = max_depth ∧
    (createTree problem criteria strategy max_depth tid rid).1.strategy = strategy ∧
    (createTree problem criteria strategy max_depth tid rid).1.current_id = rid ∧
    alookup (createTree problem criteria strategy max_depth tid rid).1.thoughts rid =
      some { id := rid, content := "Problem: " ++ problem, rationale := "Root node representing the initial problem state", status := ThoughtStatus.selected, depth := 0 } := by
  refine ⟨rfl, rfl, rfl, rfl, ?_⟩
  exact alookup_cons_self rid _ []

/-- Claim C5 (corrected), counterexample: backtrack on a fresh tree (cursor
is the root) returns the terminal signal, but the tree state is NOT left
unmodified — the root's status flips from Selected to Failed and the
failure reason is recorded in its metadata before the root check runs. -/
theorem c5_counterexample :
    (alookup fxFresh.thoughts "r1").map Thought.status = some ThoughtStatus.selected ∧
    (backtrack fxFresh "dead").2.message = some "At root node, cannot backtrack further." ∧
    (alookup (backtrack fxFresh "dead").1.thoughts "r1").map Thought.status =
      some ThoughtStatus.failed ∧
    (alookup (backtrack fxFresh "dead").1.thoughts "r1").map Thought.metadata =
      some [("failure_reason", "dead")] := by
  decide

/-- Claim C5 (corrected), amended: when the cursor is the root, backtrack
returns the terminal cannot-backtrack-further signal and does not move the
cursor, but it first marks the root Failed and records the failure reason
in its metadata (the in-memory tree is mutated before the root check; only
the skipped _save_tree keeps the mutation off disk). -/
theorem c5_amended (tree : ThoughtTree) (reason : String) (cur : Thought)
    (hc : alookup tree.thoughts tree.current_id = some cur)
    (hroot : cur.parent_id = none) :
    (backtrack tree reason).2.message = some "At root node, cannot backtrack further." ∧
    (backtrack tree reason).1.current_id = tree.current_id ∧
    (backtrack tree reason).1.thoughts =
      aupdate tree.thoughts tree.current_id
        { cur with
          status := ThoughtStatus.failed,
          metadata := aupdate cur.metadata "failure_reason" reason } := by
  unfold backtrack
  rw [hc]
  dsimp only
  rw [hroot]
  exact ⟨rfl, rfl, rfl⟩

/-- Witness for the amended C5 at a fresh concrete tree. -/
theorem c5_amended_witness :
    (backtrack fxFresh "dead").2.message = some "At root node, cannot backtrack further." :=
  (c5_amended fxFresh "dead" fxFreshRoot (by decide) rfl).1

/-- Claim C4 (corrected), counterexample: Failed is not terminal —
expand_thought on a Failed thought unconditionally sets its status to
Complete. -/
theorem c4_counterexample :
    (alookup fxFailedB.thoughts "b").map Thought.status = some ThoughtStatus.failed ∧
    (alookup (expandThought fxFailedB "b" "more detail" "notes").1.thoughts "b").map
      Thought.status = some ThoughtStatus.complete := by
  decide

/-- Claim C4 (corrected), amended: strategy-based select_path (no explicit
thought_id) never changes a Failed thought: its entry in the tree is
untouched, because Failed children are excluded from the candidate set.
(Explicit selection and expand_thought, by contrast, do resurrect Failed
thoughts, as the counterexample shows.) -/
theorem c4_amended (tree : ThoughtTree) (bw : Int) (k : String) (t : Thought)
    (hk : alookup tree.thoughts k = some t) (hf : t.status = ThoughtStatus.failed) :
    alookup (selectPath tree none bw).1.thoughts k = some t := by
  rcases selectPath_shape tree none bw with heq | ⟨s, rest, hmem, hnf, heq⟩
  · rw [heq]
    exact hk
  · rw [heq]
    have hne : ∀ p ∈ s :: rest, ¬ (p : String × Thought).1 = k := by
      intro p hp hpk
      have h1 := hmem p hp
      rw [hpk, hk] at h1
      injection h1 with h1
      exact (hnf rfl p hp) (h1 ▸ hf)
    exact (foldl_setSelected_alookup_ne _ _ hne).trans hk

/-- Witness for the amended C4: the Failed thought b stays Failed across a
strategy-based select_path that selects its sibling. -/
theorem c4_amended_witness :
    alookup (selectPath fxFailedB none 3).1.thoughts "b" = some fxThoughtB :=
  c4_amended fxFailedB 3 "b" fxThoughtB (by decide) rfl

/-- Claim C7 (corrected), counterexample: on a fresh tree with one pending
child, greedy select_path selects that child, but a second consecutive call
(without new evaluations) does not select the same thought again — the
first call moved the cursor to the selected child, so the second call sees
no candidates and returns the no-viable-candidates signal. -/
theorem c7_counterexample :
    (selectPath fxTwoKids none 3).2.selectedIds = ["a"] ∧
    (selectPath (selectPath fxTwoKids none 3).1 none 3).2.selectedIds = [] ∧
    (selectPath (selectPath fxTwoKids none 3).1 none 3).2.message =
      some "No viable candidates. Consider backtracking." := by
  decide

/-- Claim C7 (corrected), amended: greedy select_path is deterministic — it
selects exactly the head of the stable score-sorted candidate list (a
non-Failed child of maximal total_score, earliest on ties), marks it
Selected and moves the cursor to it. Because the cursor moves, two calls in
a row act on different cursors instead of re-selecting the same thought. -/
theorem c7_amended (tree : ThoughtTree) (bw : Int) (cur : Thought)
    (cands ps : List (String × Thought)) (p : String × Thought)
    (hg : tree.strategy = "greedy")
    (hc : alookup tree.thoughts tree.current_id = some cur)
    (hcand : candidatesOf tree.thoughts cur.children = some cands)
    (hhead : sortCandidates cands = p :: ps) :
    alookup tree.thoughts p.1 = some p.2 ∧
    ¬ p.2.status = ThoughtStatus.failed ∧
    (∀ q ∈ cands, (q : String × Thought).2.total_score ≤ p.2.total_score) ∧
    (selectPath tree none bw).2.selectedIds = [p.2.id] ∧
    (selectPath tree none bw).1.current_id = p.2.id ∧
    alookup (selectPath tree none bw).1.thoughts p.1 =
      some { p.2 with status := ThoughtStatus.selected } := by
  have hpmem : p ∈ cands := mem_sortCandidates.mp (hhead ▸ List.mem_cons_self p ps)
  have h1 := candidatesOf_mem hcand p hpmem
  have hne : ¬ cands = [] := by
    intro h0
    rw [h0] at hhead
    exact nomatch hhead
  have hsel : selectPath tree none bw =
      ({ tree with
          thoughts := aupdate tree.thoughts p.1 { p.2 with status := ThoughtStatus.selected },
          current_id := p.2.id },
        { selectedIds := [p.2.id], strategy_used := tree.strategy }) := by
    unfold selectPath
    rw [hc]
    dsimp only
    rw [hcand]
    dsimp only
    rw [if_neg hne]
    rw [hg]
    unfold chooseCandidates
    rw [if_pos rfl, hhead]
    rfl
  refine ⟨h1.1, h1.2, sortCandidates_head_max hhead, ?_, ?_, ?_⟩
  · rw [hsel]
  · rw [hsel]
  · rw [hsel]
    exact alookup_aupdate_self _ _ _

/-- Witness for the amended C7 on a concrete tree with children scoring 5
and 3: greedy selects a1 (score 5) and moves the cursor to it. -/
theorem c7_amended_witness :
    alookup fxScored.thoughts "a1" = some fxA1 ∧
    ¬ fxA1.status = ThoughtStatus.failed ∧
    (∀ q ∈ [("a1", fxA1), ("a2", fxA2)],
      (q : String × Thought).2.total_score ≤ fxA1.total_score) ∧
    (selectPath fxScored none 3).2.selectedIds = [fxA1.id] ∧
    (selectPath fxScored none 3).1.current_id = fxA1.id ∧
    alookup (selectPath fxScored none 3).1.thoughts "a1" =
      some { fxA1 with status := ThoughtStatus.selected } :=
  c7_amended fxScored 3 fxScoredRoot [("a1", fxA1), ("a2", fxA2)] [("a2", fxA2)] ("a1", fxA1)
    rfl (by decide) (by decide) (by decide)

/-- Claim C1 (corrected), counterexample: two thoughts with the identical
total_score 4, below the root-level pruning threshold 10 * 0.5 = 5, at
depths 0 and 3: the depth-3 thought is pruned exactly like the depth-0 one
(both tests return true), refuting that the deeper thought is strictly less
likely to be pruned — the depth term raises the threshold (10 * 0.8 = 8)
instead of widening the acceptance window. -/
theorem c1_counterexample :
    fxShallow.total_score = fxDeep.total_score ∧
    fxShallow.depth = 0 ∧ fxDeep.depth = 3 ∧
    fxShallow.total_score < fxPruneTree.best_score_seen * (1 / 2) ∧
    shouldPrune fxShallow fxPruneTree = true ∧
    shouldPrune fxDeep fxPruneTree = true := by
  decide

/-- Claim C1 (corrected), amended: with a positive bound, a thought is
pruned exactly when total_score < best_score_seen * (0.5 + 0.1 * depth);
pruning is monotone in depth (same score, deeper ⇒ pruned whenever the
shallower one is — the acceptance window narrows with depth rather than
widening); and a pruned evaluation marks the thought Failed with the
pruning flag and reason recorded in its metadata. -/
theorem c1_amended (tree : ThoughtTree) (t : Thought) (hb : 0 < tree.best_score_seen) :
    (shouldPrune t tree = true ↔
      t.total_score < tree.best_score_seen * (1 / 2 + (1 / 10) * (t.depth : ℚ))) ∧
    (∀ t2 : Thought, t2.total_score = t.total_score → t.depth ≤ t2.depth →
      shouldPrune t tree = true → shouldPrune t2 tree = true) ∧
    (∀ (tr : ThoughtTree) (e : EvalEntry) (r : EvalResult),
      (evalStep tr e).2 = some r → r.classification = "pruned" →
      ∃ th2, alookup (evalStep tr e).1.thoughts r.thought_id = some th2 ∧
        th2.status = ThoughtStatus.failed ∧
        alookup th2.metadata "pruned" = some "true" ∧
        alookup th2.metadata "prune_reason" = some pruneReasonText) := by
  refine ⟨?_, fun t2 hts hd h => shouldPrune_depth_mono tree hb t t2 hts hd h, ?_⟩
  · unfold shouldPrune
    rw [if_neg (not_le.mpr hb)]
    exact ⟨of_decide_eq_true, decide_eq_true⟩
  · intro tr e r hr hcl
    cases halo : alookup tr.thoughts e.thought_id with
    | none =>
      unfold evalStep at hr
      rw [halo] at hr
      exact nomatch hr
    | some th =>
      unfold evalStep at hr ⊢
      rw [halo] at hr ⊢
      dsimp only at hr ⊢
      split_ifs at hr ⊢ <;>
        (try dsimp only at hr ⊢) <;>
        injection hr with hr <;>
        first
          | (subst hr
             try dsimp only
             refine ⟨_, alookup_aupdate_self _ _ _, rfl, ?_, alookup_aupdate_self _ _ _⟩
             rw [alookup_aupdate_ne _ _ (by decide)]
             exact alookup_aupdate_self _ _ _)
          | (rw [← hr] at hcl
             exact absurd hcl (statusLabel_ne_pruned _))

/-- Witness for the amended C1: the depth-3 thought with score 4 against
bound 10 is pruned, via the exactly-when direction (4 < 10 * 0.8). -/
theorem c1_amended_witness : shouldPrune fxDeep fxPruneTree = true :=
  (c1_amended fxPruneTree fxDeep (by decide)).1.mpr (by decide)

/-- Claim C2 (confirmed): in one evaluation step of evaluate_thoughts,
best_score_seen becomes max(best_score_seen, total_score) and the pruning
test is taken against that updated bound (so, threaded through the batch
fold, the bound judging a sibling reflects the best sibling already seen);
a thought that survives pruning is classified by the three-tier rule:
Promising iff total ≥ 7 and min score ≥ 5, Uncertain iff total ≥ 5 and min
≥ 3 (and not Promising), Failed otherwise. -/
theorem c2_batch_bound_and_classification (tree : ThoughtTree) (e : EvalEntry) (th : Thought)
    (hfound : alookup tree.thoughts e.thought_id = some th) :
    (evalStep tree e).1.best_score_seen =
      max tree.best_score_seen (calculateWeightedScore e.scores tree.criteria_weights) ∧
    ((evalStep tree e).2.map (fun r => r.classification) = some "pruned" ↔
      shouldPrune
        { th with
          scores := e.scores,
          total_score := calculateWeightedScore e.scores tree.criteria_weights }
        { tree with
          best_score_seen :=
            max tree.best_score_seen (calculateWeightedScore e.scores tree.criteria_weights) } =
        true) ∧
    (∀ th2, alookup (evalStep tree e).1.thoughts e.thought_id = some th2 →
      ¬ (evalStep tree e).2.map (fun r => r.classification) = some "pruned" →
      ((th2.status = ThoughtStatus.promising ↔
          (7 ≤ calculateWeightedScore e.scores tree.criteria_weights ∧
            5 ≤ minScore e.scores)) ∧
        (th2.status = ThoughtStatus.uncertain ↔
          (5 ≤ calculateWeightedScore e.scores tree.criteria_weights ∧
            3 ≤ minScore e.scores ∧
            ¬ (7 ≤ calculateWeightedScore e.scores tree.criteria_weights ∧
              5 ≤ minScore e.scores))) ∧
        (th2.status = ThoughtStatus.failed ↔
          ¬ (5 ≤ calculateWeightedScore e.scores tree.criteria_weights ∧
            3 ≤ minScore e.scores)))) := by
  unfold evalStep
  rw [hfound]
  dsimp only
  rw [if_lt_max]
  split_ifs with hp
  · refine ⟨rfl, iff_of_true rfl hp, ?_⟩
    intro th2 h2 hnp
    exact absurd rfl hnp
  · refine ⟨rfl, ?_, ?_⟩
    · refine iff_of_false ?_ hp
      intro hq
      dsimp only at hq
      injection hq with hq
      exact statusLabel_ne_pruned _ hq
    · intro th2 h2 hnp
      rw [alookup_aupdate_self] at h2
      injection h2 with h2
      rw [← h2]
      dsimp only
      exact ⟨classifyStatus_promising_iff _ _, classifyStatus_uncertain_iff _ _,
        classifyStatus_failed_iff _ _⟩

/-- Witness for C2 at a concrete evaluation: the updated bound equals
max(old bound, weighted total). -/
theorem c2_witness :
    (evalStep fxTwoKids fxEvalA).1.best_score_seen =
      max fxTwoKids.best_score_seen
        (calculateWeightedScore fxEvalA.scores fxTwoKids.criteria_weights) :=
  (c2_batch_bound_and_classification fxTwoKids fxEvalA fxThoughtA (by decide)).1

theorem samplingTake_eq_beamSlice {α : Type} (l : List α) (bw : Int) (h : 0 ≤ bw) :
    samplingTake l bw = pyTakeSlice l bw := by
  unfold samplingTake pyTakeSlice
  rw [if_pos h, if_pos (le_min h (Int.natCast_nonneg _))]
  by_cases hle : bw ≤ (l.length : Int)
  · rw [min_eq_left hle]
  · have hge : (l.length : Int) ≤ bw := le_of_not_le hle
    rw [min_eq_right hge, Int.toNat_natCast, List.take_length]
    have h2 : l.length ≤ bw.toNat := by
      have h3 := Int.toNat_le_toNat hge
      rw [Int.toNat_natCast] at h3
      exact h3
    exact (List.take_of_length_le h2).symm

/-- Claim C8 (corrected), counterexample: at beam_width = -1 with two viable
candidates, Beam returns all but the last candidate (Python slice
semantics) while Sampling's selection loop runs zero times, selects
nothing, and the call fails on selected[0] with the tree unchanged — the
two strategies are not equivalent for every beam_width. -/
theorem c8_counterexample :
    (selectPath fxBeam none (-1)).2.selectedIds = ["a"] ∧
    (selectPath fxSamp none (-1)).2.selectedIds = [] ∧
    (selectPath fxSamp none (-1)).2.error = some "IndexError: list index out of range" ∧
    (selectPath fxSamp none (-1)).1 = fxSamp := by
  decide

/-- Claim C8 (corrected), amended: for every beam_width ≥ 0 the Sampling
strategy is deterministic and identical to Beam — select_path returns the
same selected ids, the same error or message, and the same resulting tree
(up to the stored strategy string), and the selection is exactly the first
beam_width entries of the score-sorted candidate list. -/
theorem c8_amended (tree : ThoughtTree) (bw : Int) (hbw : 0 ≤ bw) :
    (selectPath { tree with strategy := "sampling" } none bw).2.selectedIds =
      (selectPath { tree with strategy := "beam" } none bw).2.selectedIds ∧
    (selectPath { tree with strategy := "sampling" } none bw).2.error =
      (selectPath { tree with strategy := "beam" } none bw).2.error ∧
    (selectPath { tree with strategy := "sampling" } none bw).2.message =
      (selectPath { tree with strategy := "beam" } none bw).2.message ∧
    (selectPath { tree with strategy := "sampling" } none bw).1 =
      { (selectPath { tree with strategy := "beam" } none bw).1 with strategy := "sampling" } ∧
    (∀ (cur : Thought) (cands : List (String × Thought)),
      alookup tree.thoughts tree.current_id = some cur →
      candidatesOf tree.thoughts cur.children = some cands →
      (selectPath { tree with strategy := "sampling" } none bw).2.selectedIds =
        ((sortCandidates cands).take bw.toNat).map (fun p => (p : String × Thought).2.id)) := by
  unfold selectPath
  dsimp only
  cases hcur : alookup tree.thoughts tree.current_id with
  | none =>
    refine ⟨rfl, rfl, rfl, rfl, ?_⟩
    intro cur2 cands2 hc2 hcand2
    exact nomatch hc2
  | some cur =>
    dsimp only
    cases hcand : candidatesOf tree.thoughts cur.children with
    | none =>
      refine ⟨rfl, rfl, rfl, rfl, ?_⟩
      intro cur2 cands2 hc2 hcand2
      injection hc2 with hc2
      subst hc2
      rw [hcand] at hcand2
      exact nomatch hcand2
    | some cands =>
      dsimp only
      have htake : pyTakeSlice (sortCandidates cands) bw = (sortCandidates cands).take bw.toNat := by
        unfold pyTakeSlice
        rw [if_pos hbw]
      by_cases hemp : cands = []
      · rw [if_pos hemp, if_pos hemp]
        refine ⟨rfl, rfl, rfl, rfl, ?_⟩
        intro cur2 cands2 hc2 hcand2
        injection hc2 with hc2
        subst hc2
        rw [hcand] at hcand2
        injection hcand2 with hcand2
        subst hcand2
        rw [hemp]
        rw [show sortCandidates ([] : List (String × Thought)) = [] from rfl]
        rw [List.take_nil]
        rfl
      · rw [if_neg hemp, if_neg hemp]
        unfold chooseCandidates
        rw [if_neg (by decide : ¬ ("sampling" : String) = "greedy"),
          if_neg (by decide : ¬ ("sampling" : String) = "beam"),
          if_neg (by decide : ¬ ("sampling" : String) = "diverse"),
          if_neg (by decide : ¬ ("beam" : String) = "greedy"),
          if_pos (rfl : ("beam" : String) = "beam")]
        rw [samplingTake_eq_beamSlice _ _ hbw, htake]
        cases hLB : (sortCandidates cands).take bw.toNat with
        | nil =>
          refine ⟨rfl, rfl, rfl, rfl, ?_⟩
          intro cur2 cands2 hc2 hcand2
          injection hc2 with hc2
          subst hc2
          rw [hcand] at hcand2
          injection hcand2 with hcand2
          subst hcand2
          rw [hLB]
          try rfl
        | cons s rest =>
          refine ⟨rfl, rfl, rfl, rfl, ?_⟩
          intro cur2 cands2 hc2 hcand2
          injection hc2 with hc2
          subst hc2
          rw [hcand] at hcand2
          injection hcand2 with hcand2
          subst hcand2
          rw [hLB]
          try rfl

/-- Witness for the amended C8 at beam_width 2 on a concrete tree with two
viable candidates: sampling and beam select the same ids. -/
theorem c8_amended_witness :
    (selectPath { fxTwoKids with strategy := "sampling" } none 2).2.selectedIds =
      (selectPath { fxTwoKids with strategy := "beam" } none 2).2.selectedIds :=
  (c8_amended fxTwoKids 2 (by decide)).1

/-- Claim C3 (corrected), counterexample: evaluate thought a with scores
averaging 9 and then re-evaluate it with scores averaging 3; afterwards
best_score_seen is 9 while the only evaluated thought's total_score is 3 —
best_score_seen does not equal the maximum total_score over evaluated
thoughts (it is only an upper bound on it). -/
theorem c3_counterexample :
    fxReEval.best_score_seen = 9 ∧ evaluatedTotals fxReEval = [3] := by
  decide

/-- Claim C3 (corrected), amended: a freshly created tree satisfies the
score bound (best_score_seen ≥ 0 and at least every thought's total_score),
every sequence of operations preserves that bound, and best_score_seen
never decreases across any sequence of operations (in particular across
evaluate_thoughts calls); equality with the maximum evaluated total_score
can fail, since re-evaluation lowers a thought's total_score while
best_score_seen keeps the old maximum. -/
theorem c3_amended :
    (∀ (problem : String) (criteria : Option (List String)) (strategy : String)
        (max_depth : Int) (tid rid : String),
      ScoreBound (createTree problem criteria strategy max_depth tid rid).1) ∧
    (∀ t u : ThoughtTree, Reaches t u → ScoreBound t → ScoreBound u) ∧
    (∀ t u : ThoughtTree, Reaches t u → t.best_score_seen ≤ u.best_score_seen) := by
  refine ⟨?_, fun t u h hs => reaches_preserves h hs, fun t u h => reaches_best_le h⟩
  intro problem criteria strategy max_depth tid rid
  refine ⟨le_refl 0, ?_⟩
  intro p hp
  have h1 := List.mem_singleton.mp hp
  rw [h1]
  exact le_refl 0

/-- Witness for the amended C3: a concrete evaluate_thoughts step reached
from a concrete tree keeps the score bound, and the bound does not
decrease. -/
theorem c3_amended_witness :
    ScoreBound (evaluateThoughts fxTwoKids [fxEvalHigh]).1 ∧
    fxTwoKids.best_score_seen ≤ (evaluateThoughts fxTwoKids [fxEvalHigh]).1.best_score_seen := by
  refine ⟨c3_amended.2.1 fxTwoKids _ (Reaches.tail (Reaches.refl _) (Step.evaluate _ _)) ?_,
    c3_amended.2.2 fxTwoKids _ (Reaches.tail (Reaches.refl _) (Step.evaluate _ _))⟩
  decide

/-- Claim C9 (corrected), counterexample: a mutating operation whose durable
write fails (diskOk = false) still reports success — no PersistenceFailure
reaches the caller even though the in-memory tree was mutated. -/
theorem c9_counterexample :
    (runMutatingOp evalSixOp fxTwoKids false).reportedError = none ∧
    ¬ (runMutatingOp evalSixOp fxTwoKids false).tree = fxTwoKids := by
  decide

/-- Claim C9 (corrected), amended: persistence failures are invisible to the
caller — for every mutating operation and tree, the outcome with a failed
durable write equals the outcome with a successful one, and the reported
error is exactly the operation's own error (never a PersistenceFailure),
because _save_tree catches and logs every exception. -/
theorem c9_amended (op : ThoughtTree → ThoughtTree × Option String) (tree : ThoughtTree) :
    runMutatingOp op tree false = runMutatingOp op tree true ∧
    (runMutatingOp op tree false).reportedError = (op tree).2 := by
  simp only [runMutatingOp, saveTreePropagatedError]
  cases h9 : (op tree).2 <;> exact ⟨rfl, rfl⟩

end ToT
